import Mathlib

/-!
Shallow embedding of `src/scaffold.py` (Scaffold CLI), a command-line tool
managing project folders under a fixed root directory `PROJECTS_DIR`.

Modelling choices:
* The filesystem subtree below `PROJECTS_DIR` is a flat list of entries,
  each keyed by its path given as a list of segments relative to the root.
  The root itself always exists and is not an entry of the list; the list
  order of sibling entries is the directory-listing (`os.listdir`) order.
* Display paths (what the program prints) are strings built with
  `joinPath`, the POSIX two-argument `os.path.join`; `PROJECTS_DIR` itself
  is a string parameter `root` (its concrete value depends on the home
  directory of the user and is irrelevant to the logic).
* Interactive `input()` calls are parameters holding the answer the
  operator would give; the prompts actually issued are returned, so that
  "never prompts" is expressible.
* The external `python -m venv` subprocess is a parameter `venvExit`
  (its exit code); on exit 0 it materialises the conventional
  `venv/bin/activate` layout, on a non-zero exit it has no modelled effect
  and `subprocess.run(check=True)` raises `CalledProcessError`.
* Removal errors: each entry carries `err : Option Nat`, an errno that
  every removal attempt of this entry raises (modelling persistent
  failures such as EBUSY, EPERM, or an EACCES that permission repair does
  not fix); independently, an entry whose mode lacks the owner write bit
  raises EACCES, and `chmod 0o777` repairs it.  These are the semantics
  the `handle_remove_readonly` hook in `delete_project` is written
  against.
* `print` output is collected as a list of lines, one element per line;
  the mirrored `logger` lines go to a separate channel and are not
  modelled.
-/

/-- POSIX two-argument `os.path.join`. -/
def joinPath (a b : String) : String :=
  if b.startsWith "/" then b
  else if a = "" then b
  else if a.endsWith "/" then a ++ b
  else a ++ "/" ++ b

/-- Absolute display path of the entry at segments `p` under the root. -/
def pathStr (root : String) (p : List String) : String :=
  p.foldl joinPath root

/-- Kind of a filesystem entry: a regular file with its content, or a
directory. -/
inductive EKind where
  | file (content : String)
  | dir
deriving DecidableEq, Repr

/-- One filesystem entry below the projects root.  `path` is the list of
segments relative to the root, `mode` its permission bits, and `err`, when
set, an errno that every removal attempt of this entry raises (see the
module docstring). -/
structure Entry where
  path : List String
  kind : EKind
  mode : Nat
  err : Option Nat := none
deriving DecidableEq, Repr

/-- The filesystem below the projects root, as a flat entry list. -/
abbrev FS := List Entry

/-- Looks up the entry at path `p`. -/
def lookupFS (fs : FS) (p : List String) : Option Entry :=
  fs.find? (fun e => e.path == p)

/-- `os.path.exists` on the path with segments `p`. -/
def fsExists (fs : FS) (p : List String) : Bool :=
  (lookupFS fs p).isSome

/-- `os.path.isdir` on the path with segments `p`. -/
def isDirFS (fs : FS) (p : List String) : Bool :=
  match lookupFS fs p with
  | some e => e.kind == EKind.dir
  | none => false

/-- Initial-segment test on segment paths: `pathLe p q` holds when the
path `q` is `p` itself or lies below `p`. -/
def pathLe : List String → List String → Bool
  | [], _ => true
  | _, [] => false
  | a :: as, b :: bs => a == b && pathLe as bs

/-- `os.listdir` at `p`: the names of the immediate children, in list
order. -/
def listdir (fs : FS) (p : List String) : List String :=
  fs.filterMap (fun e =>
    if e.path.length == p.length + 1 && pathLe p e.path then e.path.getLast?
    else none)

/-- Creates the directory `p` if absent (`os.makedirs(..., exist_ok=True)`
for a single new level below the root). -/
def mkdirSingle (fs : FS) (p : List String) : FS :=
  if fsExists fs p then fs
  else fs ++ [{ path := p, kind := EKind.dir, mode := 0o755 }]

/-- Opening `p` for writing and writing `c`: truncates an existing file in
place or appends a fresh one. -/
def writeFile (fs : FS) (p : List String) (c : String) : FS :=
  if fsExists fs p then
    fs.map (fun e => if e.path == p then { e with kind := EKind.file c } else e)
  else fs ++ [{ path := p, kind := EKind.file c, mode := 0o644 }]

/-- `os.chmod` of the path `p` to mode `m`. -/
def chmodFS (fs : FS) (p : List String) (m : Nat) : FS :=
  fs.map (fun e => if e.path == p then { e with mode := m } else e)

/-- Removal of the single entry at `p` (`os.unlink` / `os.rmdir`). -/
def eraseFS (fs : FS) (p : List String) : FS :=
  fs.filter (fun e => !(e.path == p))

/-- Python `str.lower`, character-wise.  Stated on the character list so
that it evaluates by kernel reduction; on the ASCII answers the tool
compares against, this is exactly `str.lower`. -/
def strLower (s : String) : String :=
  String.mk (s.data.map Char.toLower)

/-- Python `str.startswith`, stated on the character lists so that it
evaluates by kernel reduction. -/
def strStarts (s pre : String) : Bool :=
  pre.data.isPrefixOf s.data

/-- Lexicographic code-point comparison of character lists: the in-memory
comparison Python `sorted` applies to strings. -/
def lexLe : List Char → List Char → Bool
  | [], _ => true
  | _ :: _, [] => false
  | a :: as, b :: bs =>
    if a.toNat < b.toNat then true
    else if b.toNat < a.toNat then false
    else lexLe as bs

/-- Python string comparison `a <= b` (code-point lexicographic). -/
def strLe (a b : String) : Bool :=
  lexLe a.data b.data

/-- `validate_project_name` (scaffold.py lines 55-66): a name is available
iff `ProjectRoot/name` does not exist. -/
def validate_project_name (fs : FS) (name : String) : Bool :=
  !(fsExists fs [name])

/-- The loop of `find_venv` over `os.listdir(project_path)` (scaffold.py
lines 87-93). -/
def findVenvLoop (fs : FS) (p : List String) : List String → Option (List String)
  | [] => none
  | item :: rest =>
    let sub := p ++ [item]
    if isDirFS fs sub && fsExists fs (sub ++ ["venv", "bin", "activate"]) then
      some (sub ++ ["venv", "bin", "activate"])
    else findVenvLoop fs p rest

/-- `find_venv` (scaffold.py lines 69-95): returns the segment path of the
activate script found, if any. -/
def find_venv (fs : FS) (p : List String) : Option (List String) :=
  if fsExists fs (p ++ ["venv", "bin", "activate"]) then
    some (p ++ ["venv", "bin", "activate"])
  else findVenvLoop fs p (listdir fs p)

/-- Effect of a successful `python -m venv <project>/venv` run: the
conventional environment layout appears, modelled to the extent the tool
observes it (the `venv` and `venv/bin` directories and the `activate`
file, whose content the tool never reads). -/
def venvTree (fs : FS) (p : List String) : FS :=
  writeFile (mkdirSingle (mkdirSingle fs (p ++ ["venv"])) (p ++ ["venv", "bin"]))
    (p ++ ["venv", "bin", "activate"]) "# venv activate script"

/-- `create_venv` (scaffold.py lines 133-163).  `venvExit` is the exit code
of the external bootstrap process; `check=True` turns a non-zero exit into
a `CalledProcessError`, caught by the `except` clause and reported as
failure, so the shim is only written on exit 0.  Returns the new
filesystem, the success flag and the printed lines. -/
def create_venv (root : String) (fs : FS) (p : List String) (venvExit : Nat) :
    FS × Bool × List String :=
  let pStr := pathStr root p
  if venvExit == 0 then
    let fs1 := venvTree fs p
    let fs2 := writeFile fs1 (p ++ ["activate.sh"])
      ("#!/bin/bash\nsource " ++ joinPath pStr "venv/bin/activate" ++ "\n")
    let fs3 := chmodFS fs2 (p ++ ["activate.sh"]) 0o755
    (fs3, true,
      ["Creating Python 3.12 virtual environment...",
       "Virtual environment created at " ++ joinPath pStr "venv",
       "You can activate it with: source " ++ joinPath pStr "activate.sh"])
  else
    (fs, false,
      ["Creating Python 3.12 virtual environment...",
       "Error creating virtual environment: exit status " ++ toString venvExit])

/-- `create_project` (scaffold.py lines 98-130).  Note that the return
value of `create_venv` is not consulted: after a successful directory
creation the function returns `true` regardless of the bootstrap outcome. -/
def create_project (root : String) (fs : FS) (name : String) (env : Bool)
    (venvExit : Nat) : FS × Bool × List String :=
  if !(validate_project_name fs name) then
    (fs, false,
      ["Error: Project '" ++ name ++ "' already exists.",
       "You can either:",
       "  1. cd into it: cd ~/Documents/Projects/" ++ name,
       "  2. Choose another project name"])
  else
    let fs1 := mkdirSingle fs [name]
    let created := "Created project folder: " ++ pathStr root [name]
    if env then
      let r := create_venv root fs1 [name] venvExit
      (r.1, true, created :: r.2.2)
    else
      (fs1, true, [created])

/-- The errno of a permission-denied error. -/
def EACCES : Nat := 13

/-- The errno an attempt to remove entry `e` raises, if any: a scripted
persistent errno takes priority; otherwise an entry without the owner
write bit raises `EACCES`, repairable by `chmod`. -/
def removalError (e : Entry) : Option Nat :=
  match e.err with
  | some n => some n
  | none => if e.mode &&& 0o200 == 0 then some EACCES else none

/-- One removal step of `shutil.rmtree` under the `handle_remove_readonly`
hook (scaffold.py lines 205-212): on `EACCES` the hook chmods the failing
path to `0o777` and retries the removal of that one entry; any other errno,
or a second failure after the repair, is re-raised.  Returns the filesystem
after the step and the propagated errno, if any. -/
def removeWithHandler (fs : FS) (p : List String) : FS × Option Nat :=
  match lookupFS fs p with
  | none => (fs, none)
  | some e =>
    match removalError e with
    | none => (eraseFS fs p, none)
    | some n =>
      if n == EACCES then
        match removalError { e with mode := 0o777 } with
        | none => (eraseFS (chmodFS fs p 0o777) p, none)
        | some m => (chmodFS fs p 0o777, some m)
      else (fs, some n)

/-- The body of `shutil.rmtree`: removes the given entries in order, each
step going through `removeWithHandler`, stopping at the first propagated
errno. -/
def rmtreeGo : FS → List Entry → FS × Option Nat
  | fs, [] => (fs, none)
  | fs, e :: rest =>
    match removeWithHandler fs e.path with
    | (fs1, none) => rmtreeGo fs1 rest
    | (fs1, some n) => (fs1, some n)

/-- The entries of the subtree at `p`, deepest first (children before
parents, matching the post-order traversal of `shutil.rmtree`). -/
def victimsOf (fs : FS) (p : List String) : List Entry :=
  (fs.filter (fun e => pathLe p e.path)).insertionSort
    (fun a b => b.path.length ≤ a.path.length)

/-- `delete_project` (scaffold.py lines 166-222).  `confirm` is the answer
the operator gives to the confirmation prompt.  Returns the new
filesystem, the success flag and the printed lines. -/
def delete_project (fs : FS) (name : String) (confirm : String) :
    FS × Bool × List String :=
  if !(fsExists fs [name]) then
    (fs, false, ["Error: Project '" ++ name ++ "' does not exist."])
  else if !(strLower confirm == "y" || strLower confirm == "yes") then
    (fs, false, ["Delete operation cancelled."])
  else
    match rmtreeGo fs (victimsOf fs [name]) with
    | (fs1, none) => (fs1, true, ["Project '" ++ name ++ "' has been deleted."])
    | (fs1, some n) =>
      (fs1, false, ["Error deleting project: errno " ++ toString n])

/-- Result of `navigate_project`: the filesystem after the call, the
returned exit status, the printed lines and the prompts issued. -/
structure NavResult where
  fs : FS
  code : Nat
  output : List String
  prompts : List String
deriving DecidableEq, Repr

/-- `navigate_project` (scaffold.py lines 225-283).  `createAns` and
`envAns` are the answers the operator would give to the two prompts. -/
def navigate_project (root : String) (fs : FS) (name : String)
    (createAns envAns : String) (venvExit : Nat) : NavResult :=
  if strLower name == "home" then
    { fs := fs, code := 0, output := ["NAVIGATE_TO:" ++ root], prompts := [] }
  else
    let pStr := pathStr root [name]
    if fsExists fs [name] then
      match find_venv fs [name] with
      | some v =>
        { fs := fs, code := 0,
          output := ["NAVIGATE_TO:" ++ pStr, "ACTIVATE_VENV:" ++ pathStr root v],
          prompts := [] }
      | none =>
        { fs := fs, code := 0, output := ["NAVIGATE_TO:" ++ pStr], prompts := [] }
    else
      let createPrompt := "Project '" ++ name ++
        "' does not exist. Would you like to create it? (y/N): "
      if !(strLower createAns == "y" || strLower createAns == "yes") then
        { fs := fs, code := 2, output := ["Operation cancelled."],
          prompts := [createPrompt] }
      else
        let envPrompt :=
          "Would you like to create a Python 3.12 virtual environment in the project? (y/N): "
        let envFlag := strLower envAns == "y" || strLower envAns == "yes"
        let r := create_project root fs name envFlag venvExit
        if r.2.1 then
          if envFlag then
            { fs := r.1, code := 1,
              output := r.2.2 ++
                ["NAVIGATE_TO:" ++ pStr,
                 "ACTIVATE_VENV:" ++
                   pathStr root [name, "venv", "bin", "activate"]],
              prompts := [createPrompt, envPrompt] }
          else
            { fs := r.1, code := 1, output := r.2.2 ++ ["NAVIGATE_TO:" ++ pStr],
              prompts := [createPrompt, envPrompt] }
        else
          { fs := r.1, code := 2, output := r.2.2,
            prompts := [createPrompt, envPrompt] }

/-- The `list` command of `main` (scaffold.py lines 346-360), names only
(the venv annotation is a display augmentation).  Python `sorted` is
modelled by `insertionSort` on the string order: equal strings are
identical, so every correct sort for this total order produces the same
list. -/
def list_projects (fs : FS) : List String :=
  ((listdir fs []).filter
      (fun d => isDirFS fs [d] && !(strStarts d "."))).insertionSort
    (fun a b => strLe a b = true)

/-! Basic lemmas about the filesystem primitives. -/

theorem pathLe_refl : ∀ p : List String, pathLe p p = true
  | [] => rfl
  | a :: as => by simp [pathLe, pathLe_refl as]

theorem pathLe_cons_self (x : String) (l : List String) :
    pathLe [x] (x :: l) = true := by
  simp [pathLe]

theorem fsExists_iff {fs : FS} {p : List String} :
    fsExists fs p = true ↔ ∃ e ∈ fs, e.path = p := by
  simp [fsExists, lookupFS, List.find?_isSome]

theorem fsExists_eq_path_mem {fs : FS} {q : List String} :
    fsExists fs q = true ↔ q ∈ fs.map Entry.path := by
  rw [fsExists_iff]
  simp [List.mem_map]

theorem chmodFS_map_path (fs : FS) (p : List String) (m : Nat) :
    (chmodFS fs p m).map Entry.path = fs.map Entry.path := by
  simp only [chmodFS, List.map_map]
  apply List.map_congr_left
  intro e _
  by_cases h : (e.path == p) = true <;> simp [h, Function.comp]

theorem fsExists_chmodFS (fs : FS) (p : List String) (m : Nat) (q : List String) :
    fsExists (chmodFS fs p m) q = fsExists fs q := by
  by_cases h : fsExists fs q = true
  · rw [h, fsExists_eq_path_mem, chmodFS_map_path]
    exact fsExists_eq_path_mem.mp h
  · rw [Bool.not_eq_true] at h
    rw [h, Bool.eq_false_iff]
    intro hc
    rw [fsExists_eq_path_mem, chmodFS_map_path, ← fsExists_eq_path_mem] at hc
    rw [hc] at h
    cases h

theorem eraseFS_sublist (fs : FS) (p : List String) :
    List.Sublist (eraseFS fs p) fs :=
  List.filter_sublist fs

theorem fsExists_eraseFS_mono {fs : FS} {p q : List String}
    (h : fsExists (eraseFS fs p) q = true) : fsExists fs q = true := by
  rw [fsExists_iff] at h ⊢
  obtain ⟨e, he, hp⟩ := h
  exact ⟨e, (eraseFS_sublist fs p).subset he, hp⟩

theorem fsExists_eraseFS_self (fs : FS) (p : List String) :
    fsExists (eraseFS fs p) p = false := by
  rw [Bool.eq_false_iff, Ne, fsExists_iff]
  rintro ⟨e, he, rfl⟩
  rw [eraseFS, List.mem_filter] at he
  simp at he

theorem mem_chmodFS {fs : FS} {p : List String} {m : Nat} {x : Entry}
    (h : x ∈ chmodFS fs p m) : ∃ e ∈ fs, x.path = e.path ∧ x.err = e.err := by
  rw [chmodFS, List.mem_map] at h
  obtain ⟨e, he, rfl⟩ := h
  refine ⟨e, he, ?_⟩
  by_cases hp : (e.path == p) = true <;> simp [hp]

theorem mem_eraseFS {fs : FS} {p : List String} {x : Entry}
    (h : x ∈ eraseFS fs p) : x ∈ fs :=
  (eraseFS_sublist fs p).subset h

/-! Lemmas about one removal step under the permission-repair hook. -/

theorem removeWithHandler_mono {fs : FS} {p q : List String}
    (h : fsExists (removeWithHandler fs p).1 q = true) : fsExists fs q = true := by
  unfold removeWithHandler at h
  split at h
  · exact h
  · split at h
    · exact fsExists_eraseFS_mono h
    · split at h
      · split at h
        · have h2 := fsExists_eraseFS_mono h
          rwa [fsExists_chmodFS] at h2
        · rwa [fsExists_chmodFS] at h
      · exact h

theorem removeWithHandler_ok {fs : FS} {p : List String}
    (h : ∀ e ∈ fs, e.path = p → e.err = none) :
    (removeWithHandler fs p).2 = none ∧
      fsExists (removeWithHandler fs p).1 p = false := by
  unfold removeWithHandler
  split
  · rename_i hl
    refine ⟨rfl, ?_⟩
    simp [fsExists, hl]
  · rename_i e hl
    have hmem : e ∈ fs := List.mem_of_find?_eq_some hl
    have hpath : e.path = p := by
      have := List.find?_some hl
      rwa [beq_iff_eq] at this
    have herr : e.err = none := h e hmem hpath
    split
    · exact ⟨rfl, fsExists_eraseFS_self fs p⟩
    · rename_i n hre
      cases hm : (e.mode &&& 0o200 == 0) with
      | false =>
        have hcomp : removalError e = none := by simp [removalError, herr, hm]
        rw [hcomp] at hre
        cases hre
      | true =>
        have hcomp : removalError e = some EACCES := by
          simp [removalError, herr, hm]
        rw [hcomp] at hre
        have hn : n = EACCES := by
          cases hre
          rfl
        subst hn
        split
        · split
          · exact ⟨rfl, fsExists_eraseFS_self _ p⟩
          · rename_i m hre2
            have hcomp2 : removalError { e with mode := 0o777 } = none := by
              simp [removalError, herr]
            rw [hcomp2] at hre2
            cases hre2
        · rename_i hcond
          simp at hcond

theorem mem_removeWithHandler {fs : FS} {p : List String} {x : Entry}
    (h : x ∈ (removeWithHandler fs p).1) :
    ∃ e ∈ fs, x.path = e.path ∧ x.err = e.err := by
  unfold removeWithHandler at h
  split at h
  · exact ⟨x, h, rfl, rfl⟩
  · split at h
    · exact ⟨x, mem_eraseFS h, rfl, rfl⟩
    · split at h
      · split at h
        · exact mem_chmodFS (mem_eraseFS h)
        · exact mem_chmodFS h
      · exact ⟨x, h, rfl, rfl⟩

theorem mem_removeWithHandler_of_ne {fs : FS} {p : List String} {e : Entry}
    (he : e ∈ fs) (hne : e.path ≠ p) : e ∈ (removeWithHandler fs p).1 := by
  have hbe : (e.path == p) = false := beq_eq_false_iff_ne.mpr hne
  have hch : e ∈ chmodFS fs p 0o777 := by
    rw [chmodFS, List.mem_map]
    exact ⟨e, he, by simp [hbe]⟩
  have her : e ∈ eraseFS fs p := by
    rw [eraseFS, List.mem_filter]
    exact ⟨he, by simp [hbe]⟩
  have herch : e ∈ eraseFS (chmodFS fs p 0o777) p := by
    rw [eraseFS, List.mem_filter]
    exact ⟨hch, by simp [hbe]⟩
  unfold removeWithHandler
  split
  · exact he
  · split
    · exact her
    · split
      · split
        · exact herch
        · exact hch
      · exact he

theorem nodup_removeWithHandler {fs : FS} {p : List String}
    (h : (fs.map Entry.path).Nodup) :
    (((removeWithHandler fs p).1).map Entry.path).Nodup := by
  have hch : ((chmodFS fs p 0o777).map Entry.path).Nodup := by
    rwa [chmodFS_map_path]
  have her : ((eraseFS fs p).map Entry.path).Nodup :=
    ((eraseFS_sublist fs p).map Entry.path).nodup h
  have herch : ((eraseFS (chmodFS fs p 0o777) p).map Entry.path).Nodup :=
    ((eraseFS_sublist _ p).map Entry.path).nodup hch
  unfold removeWithHandler
  split
  · exact h
  · split
    · exact her
    · split
      · split
        · exact herch
        · exact hch
      · exact h

/-! Lemmas about the recursive removal and the subtree entry list. -/

theorem lookupFS_eq_of_nodup {fs : FS} {e : Entry}
    (hnd : (fs.map Entry.path).Nodup) (he : e ∈ fs) :
    lookupFS fs e.path = some e := by
  cases hl : lookupFS fs e.path with
  | none =>
    rw [lookupFS] at hl
    have hno := List.find?_eq_none.mp hl e he
    simp at hno
  | some x =>
    rw [lookupFS] at hl
    have hx := List.mem_of_find?_eq_some hl
    have hp := List.find?_some hl
    simp only [beq_iff_eq] at hp
    have hxe : x = e := List.inj_on_of_nodup_map hnd hx he hp
    rw [hxe]

theorem removeWithHandler_err {fs : FS} {e : Entry}
    (hnd : (fs.map Entry.path).Nodup) (he : e ∈ fs) (herr : e.err.isSome = true) :
    ((removeWithHandler fs e.path).2).isSome = true := by
  obtain ⟨n, hn⟩ := Option.isSome_iff_exists.mp herr
  have hre : removalError e = some n := by simp [removalError, hn]
  have hre2 : removalError { e with mode := 0o777 } = some n := by
    simp [removalError, hn]
  unfold removeWithHandler
  split
  · rename_i hl
    rw [lookupFS_eq_of_nodup hnd he] at hl
    cases hl
  · rename_i x hl
    rw [lookupFS_eq_of_nodup hnd he] at hl
    have hx : e = x := by cases hl; rfl
    subst hx
    split
    · rename_i h0
      rw [hre] at h0
      cases h0
    · rename_i m hm
      rw [hre] at hm
      have hmn : n = m := by cases hm; rfl
      subst hmn
      split
      · split
        · rename_i h2
          rw [hre2] at h2
          cases h2
        · rfl
      · rfl

theorem rmtreeGo_mono (l : List Entry) : ∀ (fs : FS) (q : List String),
    fsExists (rmtreeGo fs l).1 q = true → fsExists fs q = true := by
  induction l with
  | nil => intro fs q h; exact h
  | cons v rest ih =>
    intro fs q h
    rw [rmtreeGo] at h
    split at h
    · rename_i fs1 hstep
      have h2 := ih fs1 q h
      have h3 : fsExists (removeWithHandler fs v.path).1 q = true := by
        rw [hstep]
        exact h2
      exact removeWithHandler_mono h3
    · rename_i fs1 n hstep
      have h3 : fsExists (removeWithHandler fs v.path).1 q = true := by
        rw [hstep]
        exact h
      exact removeWithHandler_mono h3

theorem rmtreeGo_ok (l : List Entry) : ∀ (fs : FS),
    (∀ e ∈ fs, (∃ v ∈ l, v.path = e.path) → e.err = none) →
    (rmtreeGo fs l).2 = none ∧
      ∀ q, (∃ v ∈ l, v.path = q) → fsExists (rmtreeGo fs l).1 q = false := by
  induction l with
  | nil =>
    intro fs _
    refine ⟨rfl, ?_⟩
    rintro q ⟨v, hv, _⟩
    cases hv
  | cons v rest ih =>
    intro fs h
    have hstep := @removeWithHandler_ok fs v.path
      (fun e he hp => h e he ⟨v, List.mem_cons_self v rest, hp.symm⟩)
    cases hr : removeWithHandler fs v.path with
    | mk fs1 o =>
      rw [hr] at hstep
      obtain ⟨ho, hgone⟩ := hstep
      dsimp only at ho hgone
      subst ho
      have hinv : ∀ x ∈ fs1, (∃ w ∈ rest, w.path = x.path) → x.err = none := by
        rintro x hx ⟨w, hw, hwp⟩
        have hx' : x ∈ (removeWithHandler fs v.path).1 := by
          rw [hr]
          exact hx
        obtain ⟨e0, he0, hxp, hxe⟩ := mem_removeWithHandler hx'
        rw [hxe]
        exact h e0 he0 ⟨w, List.mem_cons_of_mem v hw, by rw [hwp, hxp]⟩
      obtain ⟨ih1, ih2⟩ := ih fs1 hinv
      have hred : rmtreeGo fs (v :: rest) = rmtreeGo fs1 rest := by
        simp only [rmtreeGo, hr]
      refine ⟨by rw [hred]; exact ih1, ?_⟩
      rintro q ⟨w, hw, hwq⟩
      rw [hred]
      rcases List.mem_cons.mp hw with hvw | hw'
      · rw [Bool.eq_false_iff]
        intro htrue
        have h1 := rmtreeGo_mono rest fs1 q htrue
        rw [← hwq, hvw] at h1
        rw [hgone] at h1
        cases h1
      · exact ih2 q ⟨w, hw', hwq⟩

theorem rmtreeGo_err (l : List Entry) : ∀ (fs : FS),
    (fs.map Entry.path).Nodup →
    (∃ v ∈ l, ∃ e ∈ fs, e.path = v.path ∧ e.err.isSome = true) →
    ((rmtreeGo fs l).2).isSome = true := by
  induction l with
  | nil =>
    rintro fs _ ⟨v, hv, _⟩
    cases hv
  | cons v rest ih =>
    rintro fs hnd ⟨w, hw, e, he, hep, herr⟩
    cases hr : removeWithHandler fs v.path with
    | mk fs1 o =>
      cases o with
      | some n =>
        have hred : rmtreeGo fs (v :: rest) = (fs1, some n) := by
          simp only [rmtreeGo, hr]
        rw [hred]
        rfl
      | none =>
        have hred : rmtreeGo fs (v :: rest) = rmtreeGo fs1 rest := by
          simp only [rmtreeGo, hr]
        rw [hred]
        by_cases hvp : e.path = v.path
        · have hx := removeWithHandler_err hnd he herr
          rw [hvp, hr] at hx
          simp at hx
        · rcases List.mem_cons.mp hw with hwv | hw'
          · rw [hwv] at hep
            exact absurd hep hvp
          · have hmem1 : e ∈ fs1 := by
              have hm := mem_removeWithHandler_of_ne he hvp
              rwa [hr] at hm
            have hnd1 : (fs1.map Entry.path).Nodup := by
              have hn2 := nodup_removeWithHandler (p := v.path) hnd
              rwa [hr] at hn2
            exact ih fs1 hnd1 ⟨w, hw', e, hmem1, hep, herr⟩

theorem mem_victimsOf {fs : FS} {p : List String} {e : Entry} :
    e ∈ victimsOf fs p ↔ e ∈ fs ∧ pathLe p e.path = true := by
  simp [victimsOf, List.mem_filter]

/-! Concrete example filesystems used to witness the theorems. -/

/-- Example filesystem: three project directories below the root. -/
def fsListExample : FS :=
  [{ path := ["beta"], kind := EKind.dir, mode := 0o755 },
   { path := [".hidden"], kind := EKind.dir, mode := 0o755 },
   { path := ["alpha"], kind := EKind.dir, mode := 0o755 }]

/-- Example filesystem: a project `a` holding a read-only file. -/
def fsReadOnlyExample : FS :=
  [{ path := ["a"], kind := EKind.dir, mode := 0o755 },
   { path := ["a", "f"], kind := EKind.file "data", mode := 0o444 }]

/-- C1: when `ProjectRoot/name` already exists, `create_project` reports
failure and leaves the filesystem unchanged, whatever the environment flag
and the bootstrap outcome would have been. -/
theorem create_project_existing_fails (root : String) (fs : FS) (name : String)
    (env : Bool) (venvExit : Nat) (hex : fsExists fs [name] = true) :
    create_project root fs name env venvExit =
      (fs, false,
        ["Error: Project '" ++ name ++ "' already exists.",
         "You can either:",
         "  1. cd into it: cd ~/Documents/Projects/" ++ name,
         "  2. Choose another project name"]) := by
  simp [create_project, validate_project_name, hex]

/-- Witness for C1 at a concrete filesystem. -/
theorem create_project_existing_fails_witness :
    fsExists fsListExample ["alpha"] = true ∧
      (create_project "/p" fsListExample "alpha" true 0).2.1 = false := by
  refine ⟨by decide, ?_⟩
  rw [create_project_existing_fails "/p" fsListExample "alpha" true 0 (by decide)]

/-- C2: deleting an existing project with any confirmation answer whose
lowercase form is neither "y" nor "yes" is cancelled: the call reports
failure and the filesystem is unchanged. -/
theorem delete_project_declined_cancels (fs : FS) (name confirm : String)
    (hex : fsExists fs [name] = true)
    (hno : strLower confirm ≠ "y" ∧ strLower confirm ≠ "yes") :
    delete_project fs name confirm =
      (fs, false, ["Delete operation cancelled."]) := by
  have h1 : (strLower confirm == "y") = false := beq_eq_false_iff_ne.mpr hno.1
  have h2 : (strLower confirm == "yes") = false := beq_eq_false_iff_ne.mpr hno.2
  simp [delete_project, hex, h1, h2]

/-- Witness for C2 at a concrete filesystem and answer. -/
theorem delete_project_declined_cancels_witness :
    fsExists fsListExample ["alpha"] = true ∧
      delete_project fsListExample "alpha" "No" =
        (fsListExample, false, ["Delete operation cancelled."]) := by
  refine ⟨by decide, ?_⟩
  exact delete_project_declined_cancels fsListExample "alpha" "No" (by decide)
    ⟨by decide, by decide⟩

/-- C3: confirmed deletion of an existing project removes the whole
subtree — a permission-denied entry is repaired with `chmod 0o777` and its
removal retried, so read-only entries do not survive — and afterwards the
existence check fails for every path at or below the project; an entry
whose removal keeps failing with an errno the permission repair does not
fix makes the whole operation report failure. -/
theorem delete_project_confirmed_removes (fs : FS) (name confirm : String)
    (hnd : (fs.map Entry.path).Nodup)
    (hex : fsExists fs [name] = true)
    (haff : strLower confirm = "y" ∨ strLower confirm = "yes") :
    ((∀ e ∈ fs, pathLe [name] e.path = true → e.err = none) →
      (delete_project fs name confirm).2.1 = true ∧
        ∀ q, pathLe [name] q = true →
          fsExists (delete_project fs name confirm).1 q = false)
    ∧ ((∃ e ∈ fs, pathLe [name] e.path = true ∧ e.err.isSome = true) →
      (delete_project fs name confirm).2.1 = false) := by
  have hc : (strLower confirm == "y" || strLower confirm == "yes") = true := by
    rcases haff with h | h <;> simp [h]
  constructor
  · intro hok
    have hgo := rmtreeGo_ok (victimsOf fs [name]) fs ?hyp
    case hyp =>
      rintro e he ⟨v, hv, hvp⟩
      have hv2 := mem_victimsOf.mp hv
      exact hok e he (by rw [← hvp]; exact hv2.2)
    obtain ⟨hnone, hgone⟩ := hgo
    cases hr : rmtreeGo fs (victimsOf fs [name]) with
    | mk fs1 o =>
      rw [hr] at hnone
      dsimp only at hnone
      subst hnone
      have hdel : delete_project fs name confirm =
          (fs1, true, ["Project '" ++ name ++ "' has been deleted."]) := by
        simp [delete_project, hex, hc, hr]
      constructor
      · rw [hdel]
      · intro q hq
        rw [hdel]
        dsimp only
        rw [Bool.eq_false_iff]
        intro htrue
        have hf1 : fsExists (rmtreeGo fs (victimsOf fs [name])).1 q = true := by
          rw [hr]
          exact htrue
        have hfs := rmtreeGo_mono _ fs q hf1
        obtain ⟨e, he, hep⟩ := fsExists_iff.mp hfs
        have hvi : e ∈ victimsOf fs [name] :=
          mem_victimsOf.mpr ⟨he, by rw [hep]; exact hq⟩
        have hgq := hgone q ⟨e, hvi, hep⟩
        rw [hr] at hgq
        dsimp only at hgq
        rw [hgq] at htrue
        cases htrue
  · rintro ⟨e, he, hple, herr⟩
    have hvi : e ∈ victimsOf fs [name] := mem_victimsOf.mpr ⟨he, hple⟩
    have hgo := rmtreeGo_err (victimsOf fs [name]) fs hnd ⟨e, hvi, e, he, rfl, herr⟩
    cases hr : rmtreeGo fs (victimsOf fs [name]) with
    | mk fs1 o =>
      rw [hr] at hgo
      cases o with
      | none => simp at hgo
      | some n => simp [delete_project, hex, hc, hr]

/-- Witness for C3: a project holding a read-only file is removed after an
affirmative answer. -/
theorem delete_project_confirmed_removes_witness :
    (delete_project fsReadOnlyExample "a" "y").2.1 = true ∧
      fsExists (delete_project fsReadOnlyExample "a" "y").1 ["a"] = false := by
  have h := (delete_project_confirmed_removes fsReadOnlyExample "a" "y"
    (by decide) (by decide) (Or.inl (by decide))).1 (by decide)
  exact ⟨h.1, h.2 ["a"] (by decide)⟩

/-! The lexicographic comparison is total and transitive, which makes the
sort well behaved. -/

theorem lexLe_total : ∀ x y : List Char, lexLe x y = true ∨ lexLe y x = true
  | [], _ => Or.inl rfl
  | _ :: _, [] => Or.inr rfl
  | a :: as, b :: bs => by
    rcases Nat.lt_trichotomy a.toNat b.toNat with h | h | h
    · left
      simp [lexLe, h]
    · rcases lexLe_total as bs with h2 | h2
      · left
        rw [lexLe, if_neg (by omega), if_neg (by omega)]
        exact h2
      · right
        rw [lexLe, if_neg (by omega), if_neg (by omega)]
        exact h2
    · right
      simp [lexLe, h]

theorem lexLe_trans : ∀ x y z : List Char,
    lexLe x y = true → lexLe y z = true → lexLe x z = true
  | [], _, _, _, _ => rfl
  | _ :: _, [], _, h1, _ => by cases h1
  | _ :: _, _ :: _, [], _, h2 => by cases h2
  | a :: as, b :: bs, c :: cs, h1, h2 => by
    rcases Nat.lt_trichotomy a.toNat b.toNat with hab | hab | hab
    · rcases Nat.lt_trichotomy b.toNat c.toNat with hbc | hbc | hbc
      · rw [lexLe, if_pos (by omega)]
      · rw [lexLe, if_pos (by omega)]
      · rw [lexLe, if_neg (by omega), if_pos (by omega)] at h2
        cases h2
    · rcases Nat.lt_trichotomy b.toNat c.toNat with hbc | hbc | hbc
      · rw [lexLe, if_pos (by omega)]
      · rw [lexLe, if_neg (by omega), if_neg (by omega)] at h1 h2 ⊢
        exact lexLe_trans as bs cs h1 h2
      · rw [lexLe, if_neg (by omega), if_pos (by omega)] at h2
        cases h2
    · rw [lexLe, if_neg (by omega), if_pos (by omega)] at h1
      cases h1

instance : IsTrans String (fun a b => strLe a b = true) :=
  ⟨fun a b c => lexLe_trans a.data b.data c.data⟩

instance : IsTotal String (fun a b => strLe a b = true) :=
  ⟨fun a b => lexLe_total a.data b.data⟩

/-- C4: the list command returns exactly the names of the non-hidden
immediate subdirectories, in sorted (code-point lexicographic) order, and
on a root holding the directories `beta`, `.hidden` and `alpha` it returns
exactly `["alpha", "beta"]`. -/
theorem list_projects_sorted_complete (fs : FS) :
    List.Sorted (fun a b => strLe a b = true) (list_projects fs)
    ∧ (∀ d, d ∈ list_projects fs ↔
        d ∈ listdir fs [] ∧ isDirFS fs [d] = true ∧ strStarts d "." = false)
    ∧ list_projects fsListExample = ["alpha", "beta"] := by
  refine ⟨?_, ?_, ?_⟩
  · exact List.sorted_insertionSort _ _
  · intro d
    simp [list_projects, List.mem_filter, and_assoc]
  · decide

/-- The `find_venv` loop returns the first listed name whose subdirectory
holds an activate script. -/
theorem findVenvLoop_spec (fs : FS) (p : List String) (l : List String) :
    findVenvLoop fs p l =
      (l.find? (fun s =>
        isDirFS fs (p ++ [s]) &&
          fsExists fs (p ++ [s] ++ ["venv", "bin", "activate"]))).map
        (fun s => p ++ [s] ++ ["venv", "bin", "activate"]) := by
  induction l with
  | nil => rfl
  | cons item rest ih =>
    simp only [findVenvLoop]
    by_cases h : (isDirFS fs (p ++ [item]) &&
        fsExists fs (p ++ [item] ++ ["venv", "bin", "activate"])) = true
    · rw [if_pos h, List.find?_cons_of_pos rest h]
      rfl
    · rw [if_neg h, List.find?_cons_of_neg rest h]
      exact ih

/-- C5: environment detection: the activate script directly under the
project wins; otherwise the first immediate subdirectory in listing order
holding one is returned; and every result lies at one of these two levels,
never deeper. -/
theorem find_venv_first_match (fs : FS) (p : List String) :
    (fsExists fs (p ++ ["venv", "bin", "activate"]) = true →
      find_venv fs p = some (p ++ ["venv", "bin", "activate"]))
    ∧ (fsExists fs (p ++ ["venv", "bin", "activate"]) = false →
      find_venv fs p =
        ((listdir fs p).find? (fun s =>
          isDirFS fs (p ++ [s]) &&
            fsExists fs (p ++ [s] ++ ["venv", "bin", "activate"]))).map
          (fun s => p ++ [s] ++ ["venv", "bin", "activate"]))
    ∧ (∀ q, find_venv fs p = some q →
        q = p ++ ["venv", "bin", "activate"] ∨
          ∃ s ∈ listdir fs p, q = p ++ [s] ++ ["venv", "bin", "activate"]) := by
  refine ⟨?_, ?_, ?_⟩
  · intro h
    simp [find_venv, h]
  · intro h
    rw [find_venv, if_neg (by rw [h]; exact Bool.false_ne_true)]
    exact findVenvLoop_spec fs p (listdir fs p)
  · intro q hq
    by_cases h : fsExists fs (p ++ ["venv", "bin", "activate"]) = true
    · left
      rw [find_venv, if_pos h] at hq
      cases hq
      rfl
    · right
      rw [find_venv, if_neg h, findVenvLoop_spec] at hq
      cases hf : (listdir fs p).find? (fun s =>
          isDirFS fs (p ++ [s]) &&
            fsExists fs (p ++ [s] ++ ["venv", "bin", "activate"])) with
      | none =>
        rw [hf] at hq
        cases hq
      | some s =>
        rw [hf] at hq
        simp only [Option.map_some'] at hq
        have hs := List.mem_of_find?_eq_some hf
        cases hq
        exact ⟨s, hs, rfl⟩

/-- Example filesystem: a project holding no top-level environment but one
inside the immediate subdirectory `s1`. -/
def fsVenvSubdirExample : FS :=
  [{ path := ["proj"], kind := EKind.dir, mode := 0o755 },
   { path := ["proj", "s1"], kind := EKind.dir, mode := 0o755 },
   { path := ["proj", "s1", "venv"], kind := EKind.dir, mode := 0o755 },
   { path := ["proj", "s1", "venv", "bin"], kind := EKind.dir, mode := 0o755 },
   { path := ["proj", "s1", "venv", "bin", "activate"],
     kind := EKind.file "# activate", mode := 0o644 }]

/-- Witness for C5: with no top-level environment, the subdirectory scan
finds the environment one level down. -/
theorem find_venv_first_match_witness :
    fsExists fsVenvSubdirExample (["proj"] ++ ["venv", "bin", "activate"]) = false ∧
      find_venv fsVenvSubdirExample ["proj"] =
        some (["proj"] ++ ["s1"] ++ ["venv", "bin", "activate"]) := by
  refine ⟨by decide, ?_⟩
  rw [(find_venv_first_match fsVenvSubdirExample ["proj"]).2.1 (by decide)]
  decide

/-! Lookup lemmas for writing and chmodding the activation shim. -/

theorem lookupFS_writeFile_self (fs : FS) (p : List String) (c : String) :
    ∃ e, lookupFS (writeFile fs p c) p = some e ∧ e.path = p ∧
      e.kind = EKind.file c := by
  by_cases h : fsExists fs p = true
  · obtain ⟨e0, he0⟩ := Option.isSome_iff_exists.mp h
    rw [lookupFS] at he0
    have hp0 := List.find?_some he0
    simp only [beq_iff_eq] at hp0
    rw [writeFile, if_pos h, lookupFS, List.find?_map]
    have hcomp : ((fun e : Entry => e.path == p) ∘ fun e =>
        if e.path == p then { e with kind := EKind.file c } else e) =
        (fun e : Entry => e.path == p) := by
      funext x
      by_cases hb : (x.path == p) = true <;> simp [hb, Function.comp]
    rw [hcomp, he0]
    refine ⟨{ e0 with kind := EKind.file c }, ?_, hp0, rfl⟩
    simp [hp0]
  · rw [Bool.not_eq_true] at h
    have hf : lookupFS fs p = none := by
      cases hl : lookupFS fs p with
      | none => rfl
      | some e =>
        rw [fsExists, hl] at h
        cases h
    rw [writeFile, if_neg (by rw [h]; exact Bool.false_ne_true)]
    rw [lookupFS, List.find?_append]
    rw [lookupFS] at hf
    rw [hf]
    exact ⟨{ path := p, kind := EKind.file c, mode := 0o644 }, by simp, rfl, rfl⟩

theorem lookupFS_chmodFS_self (fs : FS) (p : List String) (m : Nat) :
    lookupFS (chmodFS fs p m) p =
      (lookupFS fs p).map (fun e => { e with mode := m }) := by
  rw [chmodFS, lookupFS, List.find?_map, lookupFS]
  have hcomp : ((fun e : Entry => e.path == p) ∘ fun e =>
      if e.path == p then { e with mode := m } else e) =
      (fun e : Entry => e.path == p) := by
    funext x
    by_cases hb : (x.path == p) = true <;> simp [hb, Function.comp]
  rw [hcomp]
  cases hf : fs.find? (fun e => e.path == p) with
  | none => rfl
  | some e0 =>
    have hp0 := List.find?_some hf
    simp only [beq_iff_eq] at hp0
    simp [hp0]

/-- C6: with a zero bootstrap exit, the shim `activate.sh` is written with
the two-line content (shebang, then a line sourcing the activate script of
the environment) and mode `0o755`, and the step reports success; with a
non-zero exit the step reports failure and the filesystem is untouched, so
no shim appears; and the overall create outcome never depends on the
bootstrap exit code. -/
theorem create_venv_shim_spec (root : String) (fs : FS) (p : List String)
    (venvExit : Nat) :
    (venvExit = 0 →
      (create_venv root fs p venvExit).2.1 = true ∧
      ∃ e, lookupFS (create_venv root fs p venvExit).1
          (p ++ ["activate.sh"]) = some e ∧
        e.path = p ++ ["activate.sh"] ∧
        e.kind = EKind.file ("#!/bin/bash\nsource " ++
          joinPath (pathStr root p) "venv/bin/activate" ++ "\n") ∧
        e.mode = 0o755)
    ∧ (venvExit ≠ 0 →
      create_venv root fs p venvExit =
        (fs, false,
          ["Creating Python 3.12 virtual environment...",
           "Error creating virtual environment: exit status " ++
             toString venvExit]))
    ∧ (∀ name e1 e2, (create_project root fs name true e1).2.1 =
        (create_project root fs name true e2).2.1) := by
  refine ⟨?_, ?_, ?_⟩
  · intro h0
    subst h0
    constructor
    · simp [create_venv]
    · simp only [create_venv, beq_self_eq_true, if_true]
      obtain ⟨e, he, hpath, hkind⟩ := lookupFS_writeFile_self (venvTree fs p)
        (p ++ ["activate.sh"])
        ("#!/bin/bash\nsource " ++ joinPath (pathStr root p) "venv/bin/activate"
          ++ "\n")
      refine ⟨{ e with mode := 0o755 }, ?_, hpath, hkind, rfl⟩
      rw [lookupFS_chmodFS_self, he, Option.map_some']
  · intro h
    have hz : (venvExit == 0) = false := beq_eq_false_iff_ne.mpr h
    simp [create_venv, hz]
  · intro name e1 e2
    by_cases hv : validate_project_name fs name = true
    · simp [create_project, hv]
    · rw [Bool.not_eq_true] at hv
      simp [create_project, hv]

/-- Witness for C6: both bootstrap outcomes at a concrete input. -/
theorem create_venv_shim_spec_witness :
    (create_venv "/p" [] ["alpha"] 0).2.1 = true ∧
      (create_venv "/p" [] ["alpha"] 1).2.1 = false := by
  constructor
  · exact ((create_venv_shim_spec "/p" [] ["alpha"] 0).1 rfl).1
  · rw [(create_venv_shim_spec "/p" [] ["alpha"] 1).2.1 (by decide)]

theorem fsExists_mkdirSingle_self (fs : FS) (p : List String) :
    fsExists (mkdirSingle fs p) p = true := by
  by_cases h : fsExists fs p = true
  · rw [mkdirSingle, if_pos h]
    exact h
  · rw [Bool.not_eq_true] at h
    rw [mkdirSingle, if_neg (by rw [h]; exact Bool.false_ne_true)]
    have hf : lookupFS fs p = none := by
      cases hl : lookupFS fs p with
      | none => rfl
      | some e =>
        rw [fsExists, hl] at h
        cases h
    rw [fsExists, lookupFS, List.find?_append]
    rw [lookupFS] at hf
    rw [hf]
    simp

/-- C9: creating a fresh project with an environment requested reports
overall success even when the bootstrap fails: the failure is printed, but
the created directory is not rolled back and the returned value is
success (the sub-step result is not consulted by the caller). -/
theorem create_project_env_failure_keeps_success (root : String) (fs : FS)
    (name : String) (venvExit : Nat)
    (hfresh : fsExists fs [name] = false) (hexit : venvExit ≠ 0) :
    (create_project root fs name true venvExit).2.1 = true ∧
    fsExists (create_project root fs name true venvExit).1 [name] = true ∧
    (create_project root fs name true venvExit).2.2 =
      ["Created project folder: " ++ pathStr root [name],
       "Creating Python 3.12 virtual environment...",
       "Error creating virtual environment: exit status " ++
         toString venvExit] := by
  have hv : validate_project_name fs name = true := by
    rw [validate_project_name, hfresh]
    rfl
  have hz : (venvExit == 0) = false := beq_eq_false_iff_ne.mpr hexit
  refine ⟨?_, ?_, ?_⟩ <;>
    simp [create_project, create_venv, hv, hz, fsExists_mkdirSingle_self]

/-- Witness for C9 at a concrete input. -/
theorem create_project_env_failure_keeps_success_witness :
    (create_project "/p" [] "alpha" true 1).2.1 = true ∧
      fsExists (create_project "/p" [] "alpha" true 1).1 ["alpha"] = true := by
  have h := create_project_env_failure_keeps_success "/p" [] "alpha" 1
    (by decide) (by decide)
  exact ⟨h.1, h.2.1⟩

/-- C7: navigating to any name whose lowercase form is "home" emits
exactly one navigation signal carrying the projects root, returns exit
status 0, issues no prompt and changes nothing, whatever the filesystem
holds. -/
theorem navigate_home_signals_root (root : String) (fs : FS) (name : String)
    (createAns envAns : String) (venvExit : Nat)
    (h : strLower name = "home") :
    navigate_project root fs name createAns envAns venvExit =
      { fs := fs, code := 0, output := ["NAVIGATE_TO:" ++ root],
        prompts := [] } := by
  simp [navigate_project, h]

/-- Witness for C7: mixed-case HOME on a populated root. -/
theorem navigate_home_signals_root_witness :
    navigate_project "/p" fsListExample "HOME" "n" "n" 1 =
      { fs := fsListExample, code := 0, output := ["NAVIGATE_TO:" ++ "/p"],
        prompts := [] } :=
  navigate_home_signals_root "/p" fsListExample "HOME" "n" "n" 1 (by decide)

/-- C8: navigating to a missing project and declining its creation returns
the cancelled status 2, leaves the filesystem unchanged, and emits no
navigation or activation signal line. -/
theorem navigate_declined_no_creation (root : String) (fs : FS) (name : String)
    (createAns envAns : String) (venvExit : Nat)
    (hname : strLower name ≠ "home")
    (hfresh : fsExists fs [name] = false)
    (hdecl : strLower createAns ≠ "y" ∧ strLower createAns ≠ "yes") :
    navigate_project root fs name createAns envAns venvExit =
      { fs := fs, code := 2, output := ["Operation cancelled."],
        prompts := ["Project '" ++ name ++
          "' does not exist. Would you like to create it? (y/N): "] } ∧
    ∀ line ∈ (navigate_project root fs name createAns envAns venvExit).output,
      strStarts line "NAVIGATE_TO:" = false ∧
        strStarts line "ACTIVATE_VENV:" = false := by
  have h1 : (strLower name == "home") = false := beq_eq_false_iff_ne.mpr hname
  have h2 : (strLower createAns == "y") = false := beq_eq_false_iff_ne.mpr hdecl.1
  have h3 : (strLower createAns == "yes") = false :=
    beq_eq_false_iff_ne.mpr hdecl.2
  have heq : navigate_project root fs name createAns envAns venvExit =
      { fs := fs, code := 2, output := ["Operation cancelled."],
        prompts := ["Project '" ++ name ++
          "' does not exist. Would you like to create it? (y/N): "] } := by
    simp [navigate_project, h1, h2, h3, hfresh]
  refine ⟨heq, ?_⟩
  rw [heq]
  intro line hline
  rw [List.mem_singleton] at hline
  subst hline
  exact ⟨by decide, by decide⟩

/-- Witness for C8: declining the creation of a missing project. -/
theorem navigate_declined_no_creation_witness :
    navigate_project "/p" [] "gamma" "n" "y" 0 =
      { fs := [], code := 2, output := ["Operation cancelled."],
        prompts := ["Project '" ++ "gamma" ++
          "' does not exist. Would you like to create it? (y/N): "] } :=
  (navigate_declined_no_creation "/p" [] "gamma" "n" "y" 0 (by decide)
    (by decide) ⟨by decide, by decide⟩).1

/-- C10: when navigation creates a missing project with an environment
requested and the bootstrap fails, the activation signal is still emitted
carrying the computed path `ProjectRoot/name/venv/bin/activate`, although
no such script exists on disk afterwards; by contrast, the branch for an
already existing project emits an activation signal only when detection
finds a script. -/
theorem navigate_create_emits_unchecked_activation (root : String) (fs : FS)
    (name createAns envAns : String) (venvExit : Nat)
    (hname : strLower name ≠ "home")
    (hfresh : ∀ e ∈ fs, pathLe [name] e.path = false)
    (hc : strLower createAns = "y" ∨ strLower createAns = "yes")
    (he : strLower envAns = "y" ∨ strLower envAns = "yes")
    (hexit : venvExit ≠ 0) :
    (navigate_project root fs name createAns envAns venvExit).code = 1 ∧
    (navigate_project root fs name createAns envAns venvExit).output =
      ["Created project folder: " ++ pathStr root [name],
       "Creating Python 3.12 virtual environment...",
       "Error creating virtual environment: exit status " ++ toString venvExit,
       "NAVIGATE_TO:" ++ pathStr root [name],
       "ACTIVATE_VENV:" ++ pathStr root [name, "venv", "bin", "activate"]] ∧
    fsExists (navigate_project root fs name createAns envAns venvExit).fs
      [name, "venv", "bin", "activate"] = false ∧
    (∀ g : FS, fsExists g [name] = true → find_venv g [name] = none →
      (navigate_project root g name createAns envAns venvExit).output =
        ["NAVIGATE_TO:" ++ pathStr root [name]]) := by
  have h1 : (strLower name == "home") = false := beq_eq_false_iff_ne.mpr hname
  have hfe : fsExists fs [name] = false := by
    rw [Bool.eq_false_iff]
    intro h
    obtain ⟨e, hei, hep⟩ := fsExists_iff.mp h
    have hple := hfresh e hei
    rw [hep, pathLe_refl] at hple
    cases hple
  have hcb : (strLower createAns == "y" || strLower createAns == "yes") = true := by
    rcases hc with h | h <;> simp [h]
  have heb : (strLower envAns == "y" || strLower envAns == "yes") = true := by
    rcases he with h | h <;> simp [h]
  have hv : validate_project_name fs name = true := by
    rw [validate_project_name, hfe]
    rfl
  have hz : (venvExit == 0) = false := beq_eq_false_iff_ne.mpr hexit
  refine ⟨?_, ?_, ?_, ?_⟩
  · simp [navigate_project, h1, hfe, hcb, heb, create_project, create_venv, hv, hz]
  · simp [navigate_project, h1, hfe, hcb, heb, create_project, create_venv, hv, hz]
  · have hfs : (navigate_project root fs name createAns envAns venvExit).fs =
        mkdirSingle fs [name] := by
      simp [navigate_project, h1, hfe, hcb, heb, create_project, create_venv,
        hv, hz]
    rw [hfs]
    rw [mkdirSingle, if_neg (by rw [hfe]; exact Bool.false_ne_true)]
    rw [Bool.eq_false_iff]
    intro hcontra
    rw [fsExists_iff] at hcontra
    obtain ⟨e, hei, hep⟩ := hcontra
    rcases List.mem_append.mp hei with hin | hin
    · have hple := hfresh e hin
      rw [hep, pathLe_cons_self] at hple
      cases hple
    · rw [List.mem_singleton] at hin
      subst hin
      simp at hep
  · intro g hg hvnone
    simp [navigate_project, h1, hg, hvnone]

/-- Witness for C10: creating `gamma` with a failing bootstrap on an empty
root. -/
theorem navigate_create_emits_unchecked_activation_witness :
    (navigate_project "/p" [] "gamma" "y" "y" 1).code = 1 ∧
      fsExists (navigate_project "/p" [] "gamma" "y" "y" 1).fs
        ["gamma", "venv", "bin", "activate"] = false := by
  have h := navigate_create_emits_unchecked_activation "/p" [] "gamma" "y" "y" 1
    (by decide) (by intro e he; cases he) (Or.inl (by decide))
    (Or.inl (by decide)) (by decide)
  exact ⟨h.1, h.2.2.1⟩
